import Mathlib

/-!
Verification of the SRI HTML post-processing engine (vite-plugin-sri3).

The source program is shallowly embedded: HTML texts and urls are `List Char`,
byte buffers are `List Nat`, the build's output bundle is a lookup function
`List Char → Option BundleItem`, and fallible operations return `Except`.
External collaborators (the SHA-384 routine of node:crypto, the network fetch,
and the regular-expression scanner of the JS runtime) are modelled as explicit
function parameters, as the source only consumes their results.
-/

namespace Sri

/-! ### HTML Patcher (transformHTML, second loop) -/

/-- One entry of the `changes` array accumulated by `transformHTML`:
`changes.push({ integrity, crossoriginAttr, insertPos })`. -/
structure Change where
  integrity : List Char
  crossoriginAttr : List Char
  insertPos : Nat
deriving DecidableEq

/-- The inserted text built in the patch loop:
`` ` integrity="${change.integrity}"${change.crossoriginAttr}` ``. -/
def insertTextOf (change : Change) : List Char :=
  " integrity=\"".data ++ change.integrity ++ "\"".data ++ change.crossoriginAttr

/-- One splice step: `html.slice(0, p) + t + html.slice(p)`. -/
def splice (html : List Char) (pos : Nat) (t : List Char) : List Char :=
  html.take pos ++ t ++ html.drop pos

/-- The patch loop of `transformHTML`: for each change in order, splice the
insert text at `insertPos + offset` and grow `offset` by its length. -/
def applyChangesAux : List Char → List Change → Nat → List Char
  | html, [], _ => html
  | html, change :: rest, offset =>
    applyChangesAux
      (splice html (change.insertPos + offset) (insertTextOf change))
      rest
      (offset + (insertTextOf change).length)

/-- The patch loop started with `offset = 0`. -/
def applyChanges (html : List Char) (changes : List Change) : List Char :=
  applyChangesAux html changes 0

/-- Running `offset` accumulated by the first `i` changes: the sum of the lengths of
their inserted texts. -/
def prevLen (changes : List Change) (i : Nat) : Nat :=
  ((changes.take i).map fun c => (insertTextOf c).length).sum

/-! ### Filter / Policy Engine -/

/-- Embeds `isExternalUrl`: the url starts with `http://`, `https://` or `//`. -/
def isExternalUrl (url : List Char) : Bool :=
  "http://".data.isPrefixOf url || "https://".data.isPrefixOf url ||
    "//".data.isPrefixOf url

/-- A pattern list entry: a literal string (JS `url.includes(pattern)`) or a
regular expression, modelled by its `test` predicate. -/
inductive Pattern where
  | str (s : List Char)
  | regex (test : List Char → Bool)

/-- First index at which `pat` occurs inside `hay` (JS `String.indexOf`). -/
def findSubstr (hay pat : List Char) : Option Nat :=
  (List.range (hay.length + 1)).find? fun i => pat.isPrefixOf (hay.drop i)

/-- Embeds `matchesPatterns`: some entry matches the url, substring containment for
literal strings and the regular expression's own test otherwise. -/
def matchesPatterns (url : List Char) (patterns : List Pattern) : Bool :=
  patterns.any fun p =>
    match p with
    | .str s => (findSubstr url s).isSome
    | .regex test => test url

/-- The runtime value of the `crossorigin` option: absent (undefined), null,
a boolean, or a string. -/
inductive CrossoriginOption where
  | absent
  | nullValue
  | boolValue (b : Bool)
  | strValue (s : List Char)
deriving DecidableEq

/-- A value returned by a `customCrossorigin` callback: `string | boolean | null`. -/
inductive CustomCrossoriginResult where
  | nullValue
  | boolValue (b : Bool)
  | strValue (s : List Char)
deriving DecidableEq

/-- The `SriOptions` record. An `Option` field is `none` exactly when the JS
value is `undefined`; an explicitly supplied empty list is `some []`, which is
truthy in the source's `if` conditions. -/
structure SriOptions where
  ignoreMissingAssets : Bool
  crossorigin : CrossoriginOption
  customCrossorigin : Option (List Char → CustomCrossoriginResult)
  excludeExternal : Bool
  excludePatterns : Option (List Pattern)
  includePatterns : Option (List Pattern)

/-- Embeds `shouldProcessUrl`: excludeExternal check, then excludePatterns, then
includePatterns; each JS condition `opts.xs && f(xs)` is falsy when `xs` is
undefined and evaluates `f` otherwise (an empty array is truthy). -/
def shouldProcessUrl (url : List Char) (options : SriOptions) : Bool :=
  if options.excludeExternal && isExternalUrl url then
    false
  else if (match options.excludePatterns with
           | some ps => matchesPatterns url ps
           | none => false) then
    false
  else if (match options.includePatterns with
           | some ps => !matchesPatterns url ps
           | none => false) then
    false
  else
    true

/-- Embeds `getCrossoriginAttribute`: a configured custom function decides first
(null/false, true, string all return); otherwise the static option decides,
with the network-absolute fallback when it is absent. -/
def getCrossoriginAttribute (url : List Char) (options : SriOptions) : List Char :=
  match options.customCrossorigin with
  | some f =>
    match f url with
    | .nullValue => []
    | .boolValue false => []
    | .boolValue true => " crossorigin=\"anonymous\"".data
    | .strValue s => " crossorigin=\"".data ++ s ++ "\"".data
  | none =>
    match options.crossorigin with
    | .boolValue false => []
    | .nullValue => []
    | .boolValue true => " crossorigin=\"anonymous\"".data
    | .strValue s => " crossorigin=\"".data ++ s ++ "\"".data
    | .absent => if isExternalUrl url then " crossorigin=\"anonymous\"".data else []

/-! ### Bundle-key resolution (getBundleKey) -/

/-- One step of Node's posix path normalization over a segment stack:
empty and `.` segments are dropped, `..` pops the stack (kept above the root
of a relative path, dropped at the root of an absolute one). -/
def normSegsStep (isAbs : Bool) (stack : List (List Char)) (s : List Char) :
    List (List Char) :=
  if s = [] ∨ s = ['.'] then stack
  else if s = ['.', '.'] then
    match stack with
    | t :: rest => if t = ['.', '.'] then s :: t :: rest else rest
    | [] => if isAbs then [] else [['.', '.']]
  else s :: stack

/-- Normalize a slash-split segment list. -/
def normSegs (isAbs : Bool) (segs : List (List Char)) : List (List Char) :=
  (segs.foldl (normSegsStep isAbs) []).reverse

/-- Rejoin segments with `/`. -/
def joinSegs (segs : List (List Char)) : List Char :=
  List.intercalate ['/'] segs

/-- Node's `path.posix.resolve(htmlPath, url)` with the process working
directory `cwd` explicit: paths are taken right to left until an absolute one
is met, `cwd` is prepended when none is, and the join is segment-normalized. -/
def posixResolve (cwd htmlPath url : List Char) : List Char :=
  let joinedAbs : List Char × Bool :=
    if url.head? = some '/' then (url, true)
    else
      let j1 := if htmlPath = [] then url else htmlPath ++ '/' :: url
      if htmlPath.head? = some '/' then (j1, true)
      else (cwd ++ '/' :: j1, cwd.head? = some '/')
  let segs := normSegs joinedAbs.2 (joinedAbs.1.splitOn '/')
  if joinedAbs.2 then
    if segs = [] then ['/'] else '/' :: joinSegs segs
  else
    if segs = [] then ['.'] else joinSegs segs

/-- JS `s.replace(pat, "")` with a string pattern: remove the first
occurrence of `pat`, or return `s` unchanged when it does not occur. -/
def replaceFirst (s pat : List Char) : List Char :=
  match findSubstr s pat with
  | none => s
  | some i => s.take i ++ s.drop (i + pat.length)

/-- Embeds `getBundleKey(htmlPath, url)` closing over `config.base` and the process
working directory: posix-resolve against the document for base `./` or empty,
otherwise `url.replace(config.base, "")`. -/
def getBundleKey (base cwd htmlPath url : List Char) : List Char :=
  if base = "./".data ∨ base = [] then posixResolve cwd htmlPath url
  else replaceFirst url base

/-- Modelled from the spec: the spec's words for the non-root branch of the
bundle-key computation, "strip the configured base path prefix from `url` to
obtain the key" — remove `base` when it is a prefix of `url`. The source's
own branch (`url.replace(config.base, "")`) is `replaceFirst`; this
definition exists to be compared with it. -/
def specBaseKey (base url : List Char) : List Char :=
  if base.isPrefixOf url then url.drop base.length else url

/-! ### Hash Calculator and Asset Resolver -/

/-- A build output entry: a chunk carries compiled code text, an asset its raw
source bytes (text modelled as its byte encoding). -/
inductive BundleItem where
  | chunk (code : List Nat)
  | asset (source : List Nat)
deriving DecidableEq

/-- Selects the content: `bundleItem.type === "chunk" ? bundleItem.code : bundleItem.source`. -/
def itemSource : BundleItem → List Nat
  | .chunk code => code
  | .asset source => source

/-- The standard base64 alphabet. -/
def base64Table : List Char :=
  "ABCDEFGHIJKLMNOPQRSTUVWXYZabcdefghijklmnopqrstuvwxyz0123456789+/".data

/-- The base64 character of a 6-bit value. -/
def b64Char (n : Nat) : Char := base64Table.getD n 'A'

/-- Standard base64 with `=` padding, as produced by Node's
`Buffer.toString("base64")`: three bytes become four alphabet characters. -/
def base64Encode : List Nat → List Char
  | [] => []
  | [a] => [b64Char (a / 4 % 64), b64Char (a % 4 * 16), '=', '=']
  | [a, b] =>
    [b64Char (a / 4 % 64), b64Char (a % 4 * 16 + b / 16 % 16),
     b64Char (b % 16 * 4), '=']
  | a :: b :: c :: rest =>
    b64Char (a / 4 % 64) :: b64Char (a % 4 * 16 + b / 16 % 16) ::
      b64Char (b % 16 * 4 + c / 64 % 4) :: b64Char (c % 64) :: base64Encode rest

/-- Builds `` `sha384-${createHash("sha384").update(source).digest().toString("base64")}` ``
with the SHA-384 routine of node:crypto (an external collaborator) passed as
the function `sha384`. -/
def digestString (sha384 : List Nat → List Nat) (source : List Nat) : List Char :=
  "sha384-".data ++ base64Encode (sha384 source)

/-- The environment the `generateBundle` closure captures: the hash routine,
the network (url to full response body), the output bundle, `config.base`,
and the process working directory. -/
structure Env where
  sha384 : List Nat → List Nat
  fetchBody : List Char → List Nat
  bundle : List Char → Option BundleItem
  base : List Char
  cwd : List Char

/-- Embeds `calculateIntegrity(htmlPath, url)`: fetch and digest the response body
when the url starts with `"http"`, otherwise look the bundle key up —
missing entries give `null` under `ignoreMissingAsset` and throw otherwise. -/
def calculateIntegrity (env : Env) (ignoreMissingAsset : Bool)
    (htmlPath url : List Char) : Except (List Char) (Option (List Char)) :=
  if "http".data.isPrefixOf url then
    .ok (some (digestString env.sha384 (env.fetchBody url)))
  else
    match env.bundle (getBundleKey env.base env.cwd htmlPath url) with
    | none =>
      if ignoreMissingAsset then .ok none
      else .error ("Asset ".data ++ url ++ " not found in bundle".data)
    | some bundleItem => .ok (some (digestString env.sha384 (itemSource bundleItem)))

/-- Which of the two resolution paths `calculateIntegrity` takes for a url:
a network fetch, or a lookup of the computed bundle key. -/
inductive ResolveAction where
  | netFetch (url : List Char)
  | bundleLookup (key : List Char)
deriving DecidableEq

/-- The branch decision of `calculateIntegrity`, reified. -/
def resolveAction (env : Env) (htmlPath url : List Char) : ResolveAction :=
  if "http".data.isPrefixOf url then .netFetch url
  else .bundleLookup (getBundleKey env.base env.cwd htmlPath url)

/-! ### Scanner and transformHTML -/

/-- One successful `regex.exec` result: the captured url and the value of
`regex.lastIndex` right after the match (the match's end position). -/
structure RegExpMatch where
  url : List Char
  lastIndex : Nat
deriving DecidableEq

/-- The scan loop of `transformHTML`: walk the matches in order, skip urls the
filter rejects, resolve the rest (an exception aborts the whole pass), skip
`null` integrities, and record a change with `insertPos = end - endOffset`. -/
def computeChanges (env : Env) (options : SriOptions) (endOffset : Nat)
    (htmlPath : List Char) : List RegExpMatch → Except (List Char) (List Change)
  | [] => .ok []
  | m :: rest =>
    if shouldProcessUrl m.url options then
      match calculateIntegrity env options.ignoreMissingAssets htmlPath m.url with
      | .error e => .error e
      | .ok none => computeChanges env options endOffset htmlPath rest
      | .ok (some integrity) =>
        match computeChanges env options endOffset htmlPath rest with
        | .error e => .error e
        | .ok changes =>
          .ok (⟨integrity, getCrossoriginAttribute m.url options,
                m.lastIndex - endOffset⟩ :: changes)
    else
      computeChanges env options endOffset htmlPath rest

/-- Embeds `transformHTML(regex, endOffset, htmlPath, html)`: the matcher is reset
(`regex.lastIndex = 0`) so the scan (`scan`, the regular-expression engine
modelled as a pure function) depends on `html` alone; every change is computed
before the patch loop runs. -/
def transformHTML (env : Env) (options : SriOptions)
    (scan : List Char → List RegExpMatch) (endOffset : Nat)
    (htmlPath html : List Char) : Except (List Char) (List Char) :=
  match computeChanges env options endOffset htmlPath (scan html) with
  | .error e => .error e
  | .ok changes => .ok (applyChanges html changes)

/-- The three sequential tag-shape passes over one HTML document: script
(endOffset 10), stylesheet link (1), modulepreload link (1). The document's
source is reassigned only when all three passes return. -/
def processHTML (env : Env) (options : SriOptions)
    (scanScript scanCss scanModule : List Char → List RegExpMatch)
    (htmlPath html : List Char) : Except (List Char) (List Char) :=
  match transformHTML env options scanScript 10 htmlPath html with
  | .error e => .error e
  | .ok h1 =>
    match transformHTML env options scanCss 1 htmlPath h1 with
    | .error e => .error e
    | .ok h2 => transformHTML env options scanModule 1 htmlPath h2

/-! ### Bundle Hook Adapter -/

/-- The shape of `plugin.generateBundle`: absent, a plain function, or an
object whose `handler` field may itself be absent. Hook functions are an
abstract type `α`. -/
inductive Hook (α : Type) where
  | missing
  | fn (f : α)
  | objWithHandler (handler : Option α)
deriving DecidableEq

/-- Embeds `hijackGenerateBundle(plugin, afterHook)`, with sequential composition of
hook functions abstracted as `andThen`: wrap an object's truthy handler, wrap
a plain function, and leave every other shape untouched. -/
def hijackGenerateBundle {α : Type} (andThen : α → α → α) (hook : Hook α)
    (afterHook : α) : Hook α :=
  match hook with
  | .objWithHandler (some f) => .objWithHandler (some (andThen f afterHook))
  | .fn f => .fn (andThen f afterHook)
  | h => h

end Sri

namespace Sri

/-! ### Patcher lemmas (for claim C1) -/

theorem length_splice_ge (html : List Char) (pos : Nat) (t : List Char) :
    html.length ≤ (splice html pos t).length := by
  simp [splice]
  omega

theorem length_splice_of_le (html : List Char) (pos : Nat) (t : List Char)
    (h : pos ≤ html.length) :
    (splice html pos t).length = html.length + t.length := by
  simp [splice]
  omega

theorem splice_segment (html : List Char) (pos : Nat) (t : List Char)
    (h : pos ≤ html.length) :
    ((splice html pos t).drop pos).take t.length = t := by
  have hlen : (html.take pos).length = pos := List.length_take_of_le h
  rw [splice, List.append_assoc, List.drop_append_eq_append_drop, hlen,
    Nat.sub_self, List.drop_zero, List.drop_eq_nil_of_le (le_of_eq hlen),
    List.nil_append]
  exact List.take_left t (html.drop pos)

theorem splice_preserves_segment (html : List Char) (pos : Nat) (t : List Char)
    (q L : Nat) (hql : q + L ≤ html.length) (hqp : q + L ≤ pos) :
    ((splice html pos t).drop q).take L = (html.drop q).take L := by
  have hA : (html.take pos).length = min pos html.length := List.length_take pos html
  rw [splice, List.append_assoc, List.drop_append_eq_append_drop,
    List.take_append_eq_append_take]
  have h1 : ((html.take pos).drop q).length = min pos html.length - q := by
    rw [List.length_drop, hA]
  have h2 : L - ((html.take pos).drop q).length = 0 := by
    rw [h1]
    omega
  rw [h2, List.take_zero, List.append_nil, List.drop_take, List.take_take]
  have h3 : min L (pos - q) = L := by omega
  rw [h3]

theorem applyChangesAux_preserves_segment :
    ∀ (changes : List Change) (html : List Char) (offset q L : Nat),
      q + L ≤ html.length →
      (∀ c ∈ changes, q + L ≤ c.insertPos + offset) →
      ((applyChangesAux html changes offset).drop q).take L = (html.drop q).take L
  | [], _, _, _, _, _, _ => rfl
  | c :: rest, html, offset, q, L, hlen, hpos => by
    rw [applyChangesAux]
    have hc : q + L ≤ c.insertPos + offset := hpos c (List.mem_cons_self c rest)
    have hge := length_splice_ge html (c.insertPos + offset) (insertTextOf c)
    have hlen2 : q + L ≤ (splice html (c.insertPos + offset) (insertTextOf c)).length := by
      omega
    have hpos2 : ∀ c' ∈ rest, q + L ≤ c'.insertPos + (offset + (insertTextOf c).length) := by
      intro c' hc'
      have := hpos c' (List.mem_cons_of_mem c hc')
      omega
    rw [applyChangesAux_preserves_segment rest _ _ q L hlen2 hpos2]
    exact splice_preserves_segment html _ _ q L hlen hc

theorem applyChangesAux_law (changes : List Change) :
    ∀ (html : List Char) (offset : Nat),
      ((changes.map Change.insertPos).Pairwise (· < ·)) →
      (∀ c ∈ changes, c.insertPos + offset ≤ html.length) →
      ∀ (i : Nat) (hi : i < changes.length),
        ((applyChangesAux html changes offset).drop
            ((changes.get ⟨i, hi⟩).insertPos + offset + prevLen changes i)).take
          (insertTextOf (changes.get ⟨i, hi⟩)).length
        = insertTextOf (changes.get ⟨i, hi⟩) := by
  induction changes with
  | nil =>
    intro html offset _ _ i hi
    exact absurd hi (by simp)
  | cons c rest ih =>
    intro html offset hsort hbound i hi
    rw [List.map_cons, List.pairwise_cons] at hsort
    have hbc : c.insertPos + offset ≤ html.length := hbound c (List.mem_cons_self c rest)
    have hsplen : (splice html (c.insertPos + offset) (insertTextOf c)).length
        = html.length + (insertTextOf c).length := length_splice_of_le html _ _ hbc
    cases i with
    | zero =>
      have hpl : prevLen (c :: rest) 0 = 0 := rfl
      have hget : (c :: rest).get ⟨0, hi⟩ = c := rfl
      rw [hget, hpl, Nat.add_zero, applyChangesAux]
      have hpres := applyChangesAux_preserves_segment rest
        (splice html (c.insertPos + offset) (insertTextOf c))
        (offset + (insertTextOf c).length)
        (c.insertPos + offset) (insertTextOf c).length
        (by omega)
        (by
          intro c' hc'
          have hlt : c.insertPos < c'.insertPos :=
            hsort.1 _ (List.mem_map_of_mem Change.insertPos hc')
          omega)
      rw [hpres]
      exact splice_segment html _ _ hbc
    | succ i =>
      have hi' : i < rest.length := by simpa using hi
      rw [applyChangesAux]
      have hbound' : ∀ c' ∈ rest,
          c'.insertPos + (offset + (insertTextOf c).length)
            ≤ (splice html (c.insertPos + offset) (insertTextOf c)).length := by
        intro c' hc'
        have := hbound c' (List.mem_cons_of_mem c hc')
        omega
      have key := ih (splice html (c.insertPos + offset) (insertTextOf c))
        (offset + (insertTextOf c).length) hsort.2 hbound' i hi'
      have hget : (c :: rest).get ⟨i + 1, hi⟩ = rest.get ⟨i, hi'⟩ := rfl
      have hprev : prevLen (c :: rest) (i + 1)
          = (insertTextOf c).length + prevLen rest i := by
        simp [prevLen, List.take_succ_cons]
      rw [hget, hprev]
      have harith : (rest.get ⟨i, hi'⟩).insertPos + offset
            + ((insertTextOf c).length + prevLen rest i)
          = (rest.get ⟨i, hi'⟩).insertPos + (offset + (insertTextOf c).length)
            + prevLen rest i := by omega
      rw [harith]
      exact key

/-- Claim C1: the HTML Patcher's insertion-position law. For every HTML text
and every ordered list of changes whose original insertion positions are
strictly increasing positions of the text, the patch loop (splicing each
inserted text at `insertPos + offset` with `offset` starting at 0 and grown by
each inserted text's length) places the i-th inserted text beginning at output
position `P_i + sum(L_1..L_(i-1))`. -/
theorem claimC1_insertion_position_law (html : List Char) (changes : List Change)
    (hsort : (changes.map Change.insertPos).Pairwise (· < ·))
    (hbound : ∀ c ∈ changes, c.insertPos ≤ html.length)
    (i : Nat) (hi : i < changes.length) :
    ((applyChanges html changes).drop
        ((changes.get ⟨i, hi⟩).insertPos + prevLen changes i)).take
      (insertTextOf (changes.get ⟨i, hi⟩)).length
    = insertTextOf (changes.get ⟨i, hi⟩) := by
  have hbound' : ∀ c ∈ changes, c.insertPos + 0 ≤ html.length := by
    intro c hc
    simpa using hbound c hc
  have hlaw := applyChangesAux_law changes html 0 hsort hbound' i hi
  rw [applyChanges]
  simpa using hlaw

/-- Witness for claim C1: two concrete changes at positions 3 and 8 of a
concrete document, checked for the second insertion. -/
theorem claimC1_witness :
    ((applyChanges "<head></head>".data [⟨['A'], [], 3⟩, ⟨['B'], [], 8⟩]).drop
        ((([⟨['A'], [], 3⟩, ⟨['B'], [], 8⟩] : List Change).get ⟨1, by decide⟩).insertPos
          + prevLen [⟨['A'], [], 3⟩, ⟨['B'], [], 8⟩] 1)).take
      (insertTextOf (([⟨['A'], [], 3⟩, ⟨['B'], [], 8⟩] : List Change).get ⟨1, by decide⟩)).length
    = insertTextOf (([⟨['A'], [], 3⟩, ⟨['B'], [], 8⟩] : List Change).get ⟨1, by decide⟩) :=
  claimC1_insertion_position_law "<head></head>".data
    [⟨['A'], [], 3⟩, ⟨['B'], [], 8⟩] (by decide) (by decide) 1 (by decide)

end Sri

namespace Sri

/-! ### Bundle-key lemmas (for claim C2) -/

theorem replaceFirst_append (base rest : List Char) :
    replaceFirst (base ++ rest) base = rest := by
  have hp0 : base.isPrefixOf ((base ++ rest).drop 0) = true := by
    rw [List.drop_zero]
    exact List.isPrefixOf_iff_prefix.mpr (List.prefix_append base rest)
  have hocc : findSubstr (base ++ rest) base = some 0 := by
    rw [findSubstr, List.range_succ_eq_map]
    exact List.find?_cons_of_pos _ hp0
  rw [replaceFirst, hocc]
  show List.take 0 (base ++ rest) ++ List.drop (0 + base.length) (base ++ rest) = rest
  rw [List.take_zero, Nat.zero_add, List.nil_append]
  exact List.drop_left base rest

/-- Claim C2 counterexample: with base `/a/`, the key for url `/x/a/b.js` is
`/xb.js` (the first occurrence of the base, mid-string, is removed), not the
prefix-stripped url the claim describes; and in this branch the key does not
depend on the document's own output path at all (two different document paths
give the same key). -/
theorem claimC2_counterexample :
    getBundleKey "/a/".data "/cwd".data "index.html".data "/x/a/b.js".data
        ≠ specBaseKey "/a/".data "/x/a/b.js".data
    ∧ getBundleKey "/a/".data "/cwd".data "nested/deep/index.html".data "/a/x.js".data
        = getBundleKey "/a/".data "/cwd".data "other.html".data "/a/x.js".data :=
  ⟨by decide, by decide⟩

/-- Claim C2 amended: when the configured base is `./` or empty, the key is
`url` posix-resolved against the document's own output path; otherwise the key
is `url` with the first occurrence of the base removed — which equals
prefix-stripping whenever `url` starts with the base — and in that branch the
key does not depend on the document's output path. -/
theorem claimC2_amended (base cwd htmlPath htmlPath2 url rest : List Char) :
    ((base = "./".data ∨ base = []) →
        getBundleKey base cwd htmlPath url = posixResolve cwd htmlPath url)
    ∧ (¬(base = "./".data ∨ base = []) →
        getBundleKey base cwd htmlPath url = replaceFirst url base
        ∧ getBundleKey base cwd htmlPath url = getBundleKey base cwd htmlPath2 url
        ∧ (url = base ++ rest → getBundleKey base cwd htmlPath url = rest)) := by
  constructor
  · intro h
    rw [getBundleKey, if_pos h]
  · intro h
    refine ⟨?_, ?_, ?_⟩
    · rw [getBundleKey, if_neg h]
    · rw [getBundleKey, if_neg h, getBundleKey, if_neg h]
    · intro hurl
      rw [getBundleKey, if_neg h, hurl]
      exact replaceFirst_append base rest

/-- Witness for the amended C2: a base-prefixed url is prefix-stripped, and an
empty base resolves against the document path. -/
theorem claimC2_witness :
    getBundleKey "/assets/".data "/cwd".data "index.html".data "/assets/app.js".data
      = "app.js".data
    ∧ getBundleKey [] "/cwd".data "index.html".data "app.js".data
      = posixResolve "/cwd".data "index.html".data "app.js".data :=
  ⟨((claimC2_amended "/assets/".data "/cwd".data "index.html".data "x.html".data
      "/assets/app.js".data "app.js".data).2 (by decide)).2.2 (by decide),
   (claimC2_amended [] "/cwd".data "index.html".data "x.html".data
      "app.js".data []).1 (Or.inr rfl)⟩

/-- Claim C3 counterexample: `//cdn.example.com/lib.js` is network-absolute in
the Filter's sense (`isExternalUrl` is true), yet the Resolver performs a
bundle lookup for it, not a fetch — with an empty bundle it fails with the
missing-asset error instead of returning the digest of the fetched body. -/
theorem claimC3_counterexample :
    isExternalUrl "//cdn.example.com/lib.js".data = true
    ∧ resolveAction ⟨fun _ => [], fun _ => [0], fun _ => none, "/".data, "/".data⟩
        "index.html".data "//cdn.example.com/lib.js".data
      = ResolveAction.bundleLookup "/cdn.example.com/lib.js".data
    ∧ calculateIntegrity ⟨fun _ => [], fun _ => [0], fun _ => none, "/".data, "/".data⟩
        false "index.html".data "//cdn.example.com/lib.js".data
      = Except.error ("Asset ".data ++ "//cdn.example.com/lib.js".data
          ++ " not found in bundle".data) := by
  refine ⟨by decide, by decide, ?_⟩
  rfl

/-- Claim C3 amended: the Resolver fetches (digesting the full response body,
with no dependence on the bundle) exactly when the url starts with the string
`http` — which covers `http://` and `https://` but not protocol-relative `//`
urls, and also covers any other url beginning with those four characters;
every other url takes the bundle-lookup path and never fetches (no dependence
on the network). -/
theorem claimC3_amended (env : Env) (ign : Bool) (htmlPath url : List Char) :
    (resolveAction env htmlPath url = ResolveAction.netFetch url
        ↔ "http".data.isPrefixOf url = true)
    ∧ ("http".data.isPrefixOf url = true →
        ∀ bundle2 : List Char → Option BundleItem,
          calculateIntegrity ⟨env.sha384, env.fetchBody, bundle2, env.base, env.cwd⟩
              ign htmlPath url
            = calculateIntegrity env ign htmlPath url
          ∧ calculateIntegrity env ign htmlPath url
            = Except.ok (some (digestString env.sha384 (env.fetchBody url))))
    ∧ ("http".data.isPrefixOf url = false →
        resolveAction env htmlPath url
          = ResolveAction.bundleLookup (getBundleKey env.base env.cwd htmlPath url)
        ∧ ∀ fetch2 : List Char → List Nat,
            calculateIntegrity ⟨env.sha384, fetch2, env.bundle, env.base, env.cwd⟩
              ign htmlPath url
            = calculateIntegrity env ign htmlPath url) := by
  refine ⟨?_, ?_, ?_⟩
  · cases h : "http".data.isPrefixOf url with
    | true => simp [resolveAction, h]
    | false => simp [resolveAction, h]
  · intro h bundle2
    exact ⟨by simp [calculateIntegrity, h], by simp [calculateIntegrity, h]⟩
  · intro h
    refine ⟨by simp [resolveAction, h], ?_⟩
    intro fetch2
    simp [calculateIntegrity, h]

/-- Witness for the amended C3 at a concrete https url and a concrete
relative url. -/
theorem claimC3_witness :
    calculateIntegrity ⟨fun _ => [1], fun _ => [2], fun _ => none, "/".data, "/".data⟩
        false "index.html".data "https://cdn.example.com/a.css".data
      = Except.ok (some (digestString (fun _ => [1]) ((fun _ => ([2] : List Nat))
          "https://cdn.example.com/a.css".data)))
    ∧ resolveAction ⟨fun _ => [1], fun _ => [2], fun _ => none, "/".data, "/".data⟩
        "index.html".data "assets/app.js".data
      = ResolveAction.bundleLookup
          (getBundleKey "/".data "/".data "index.html".data "assets/app.js".data) :=
  ⟨(((claimC3_amended ⟨fun _ => [1], fun _ => [2], fun _ => none, "/".data, "/".data⟩
      false "index.html".data "https://cdn.example.com/a.css".data).2.1 (by decide)
      (fun _ => none)).2),
   ((claimC3_amended ⟨fun _ => [1], fun _ => [2], fun _ => none, "/".data, "/".data⟩
      false "index.html".data "assets/app.js".data).2.2 (by decide)).1⟩

/-- Claim C4 counterexample: with an explicitly supplied empty `includePatterns`
list (and nothing else configured), `shouldProcessUrl` rejects a plain url —
the empty include list does not behave as "no include filter". -/
theorem claimC4_counterexample :
    shouldProcessUrl "app.js".data
      ⟨false, CrossoriginOption.absent, none, false, none, some []⟩ = false := by
  decide

/-- Claim C4 amended: the include filter rejects whenever `includePatterns` is
present (even as an empty list) and no entry matches; only an unset
`includePatterns` imposes no restriction, in which case a url is processed iff
it is not excluded by `excludeExternal` or by `excludePatterns`. -/
theorem claimC4_amended (url : List Char) (o : SriOptions) (ps : List Pattern) :
    (o.includePatterns = some ps → matchesPatterns url ps = false →
        shouldProcessUrl url o = false)
    ∧ (o.includePatterns = none →
        (shouldProcessUrl url o = true ↔
          (o.excludeExternal && isExternalUrl url) = false
          ∧ ∀ qs, o.excludePatterns = some qs → matchesPatterns url qs = false)) := by
  constructor
  · intro hinc hmat
    simp [shouldProcessUrl, hinc, hmat]
  · intro hinc
    rw [shouldProcessUrl, hinc]
    cases hee : o.excludeExternal && isExternalUrl url with
    | true => simp
    | false =>
      cases hex : o.excludePatterns with
      | none => simp
      | some qs =>
        cases hm : matchesPatterns url qs with
        | true => simp [hm]
        | false => simp [hm]

/-- Witness for the amended C4: an include list that does not match rejects,
and an unset include list lets a plain url through. -/
theorem claimC4_witness :
    shouldProcessUrl "app.js".data
      ⟨false, CrossoriginOption.absent, none, false, none,
        some [Pattern.str "vendor".data]⟩ = false
    ∧ shouldProcessUrl "app.js".data
      ⟨false, CrossoriginOption.absent, none, false, none, none⟩ = true :=
  ⟨(claimC4_amended "app.js".data
      ⟨false, CrossoriginOption.absent, none, false, none,
        some [Pattern.str "vendor".data]⟩ [Pattern.str "vendor".data]).1
      rfl (by decide),
   ((claimC4_amended "app.js".data
      ⟨false, CrossoriginOption.absent, none, false, none, none⟩ []).2 rfl).mpr
      ⟨by decide, by intro qs h; cases h⟩⟩

/-- Claim C5: exclude precedence — a url matching at least one
`excludePatterns` entry is never processed, whatever the include
configuration says. -/
theorem claimC5_exclude_precedence (url : List Char) (o : SriOptions)
    (ps : List Pattern) (hex : o.excludePatterns = some ps)
    (hmat : matchesPatterns url ps = true) :
    shouldProcessUrl url o = false := by
  simp [shouldProcessUrl, hex, hmat]

/-- Witness for C5: a url that matches both the exclude list and the include
list is rejected. -/
theorem claimC5_witness :
    matchesPatterns "https://cdn.x/a.js".data [Pattern.str "cdn".data] = true
    ∧ shouldProcessUrl "https://cdn.x/a.js".data
      ⟨false, CrossoriginOption.absent, none, false,
        some [Pattern.str "cdn".data], some [Pattern.str "cdn".data]⟩ = false :=
  ⟨by decide,
   claimC5_exclude_precedence "https://cdn.x/a.js".data
     ⟨false, CrossoriginOption.absent, none, false,
       some [Pattern.str "cdn".data], some [Pattern.str "cdn".data]⟩
     [Pattern.str "cdn".data] rfl (by decide)⟩

end Sri

namespace Sri

/-- Claim C6: crossorigin decision precedence. A configured custom function's
return value alone decides the attribute (null/false none, true anonymous,
string verbatim), whatever the static option holds; without one, an explicit
false/null option gives none, true anonymous, a string verbatim, and an absent
option gives anonymous exactly for network-absolute urls. -/
theorem claimC6_crossorigin_precedence (url : List Char) (o : SriOptions)
    (f : List Char → CustomCrossoriginResult) :
    (o.customCrossorigin = some f →
        ((f url = CustomCrossoriginResult.nullValue
            ∨ f url = CustomCrossoriginResult.boolValue false) →
            getCrossoriginAttribute url o = [])
        ∧ (f url = CustomCrossoriginResult.boolValue true →
            getCrossoriginAttribute url o = " crossorigin=\"anonymous\"".data)
        ∧ (∀ s, f url = CustomCrossoriginResult.strValue s →
            getCrossoriginAttribute url o = " crossorigin=\"".data ++ s ++ "\"".data))
    ∧ (o.customCrossorigin = none →
        ((o.crossorigin = CrossoriginOption.boolValue false
            ∨ o.crossorigin = CrossoriginOption.nullValue) →
            getCrossoriginAttribute url o = [])
        ∧ (o.crossorigin = CrossoriginOption.boolValue true →
            getCrossoriginAttribute url o = " crossorigin=\"anonymous\"".data)
        ∧ (∀ s, o.crossorigin = CrossoriginOption.strValue s →
            getCrossoriginAttribute url o = " crossorigin=\"".data ++ s ++ "\"".data)
        ∧ (o.crossorigin = CrossoriginOption.absent →
            getCrossoriginAttribute url o
              = if isExternalUrl url then " crossorigin=\"anonymous\"".data else [])) := by
  constructor
  · intro hc
    refine ⟨?_, ?_, ?_⟩
    · rintro (h | h) <;> simp [getCrossoriginAttribute, hc, h]
    · intro h
      simp [getCrossoriginAttribute, hc, h]
    · intro s h
      simp [getCrossoriginAttribute, hc, h]
  · intro hc
    refine ⟨?_, ?_, ?_, ?_⟩
    · rintro (h | h) <;> simp [getCrossoriginAttribute, hc, h]
    · intro h
      simp [getCrossoriginAttribute, hc, h]
    · intro s h
      simp [getCrossoriginAttribute, hc, h]
    · intro h
      simp [getCrossoriginAttribute, hc, h]

/-- Witness for C6: a custom function returning null suppresses the attribute
even though the static option is true, and without a custom function the
static true option yields anonymous. -/
theorem claimC6_witness :
    getCrossoriginAttribute "a.js".data
      ⟨false, CrossoriginOption.boolValue true,
        some (fun _ => CustomCrossoriginResult.nullValue), false, none, none⟩ = []
    ∧ getCrossoriginAttribute "a.js".data
      ⟨false, CrossoriginOption.boolValue true, none, false, none, none⟩
      = " crossorigin=\"anonymous\"".data :=
  ⟨((claimC6_crossorigin_precedence "a.js".data
      ⟨false, CrossoriginOption.boolValue true,
        some (fun _ => CustomCrossoriginResult.nullValue), false, none, none⟩
      (fun _ => CustomCrossoriginResult.nullValue)).1 rfl).1 (Or.inl rfl),
   (((claimC6_crossorigin_precedence "a.js".data
      ⟨false, CrossoriginOption.boolValue true, none, false, none, none⟩
      (fun _ => CustomCrossoriginResult.nullValue)).2 rfl).2.1) rfl⟩

/-- Claim C7: the emitted integrity value is the string `sha384-` followed by
the standard base64 encoding of the SHA-384 digest of the resolved content —
the fetched response body for `http`-prefixed urls, a chunk's compiled code
for chunk entries, and an asset's raw source bytes for asset entries. The
computation is a pure single-shot digest of the fully resolved buffer. -/
theorem claimC7_digest_format (env : Env) (ign : Bool) (htmlPath url : List Char) :
    ("http".data.isPrefixOf url = true →
        calculateIntegrity env ign htmlPath url
          = Except.ok (some ("sha384-".data
              ++ base64Encode (env.sha384 (env.fetchBody url)))))
    ∧ (∀ code, "http".data.isPrefixOf url = false →
        env.bundle (getBundleKey env.base env.cwd htmlPath url)
            = some (BundleItem.chunk code) →
        calculateIntegrity env ign htmlPath url
          = Except.ok (some ("sha384-".data ++ base64Encode (env.sha384 code))))
    ∧ (∀ source, "http".data.isPrefixOf url = false →
        env.bundle (getBundleKey env.base env.cwd htmlPath url)
            = some (BundleItem.asset source) →
        calculateIntegrity env ign htmlPath url
          = Except.ok (some ("sha384-".data ++ base64Encode (env.sha384 source)))) := by
  refine ⟨?_, ?_, ?_⟩
  · intro h
    simp [calculateIntegrity, h, digestString]
  · intro code h hb
    simp [calculateIntegrity, h, hb, digestString, itemSource]
  · intro source h hb
    simp [calculateIntegrity, h, hb, digestString, itemSource]

/-- Witness for C7 at a concrete bundle holding one asset with bytes
`[1, 2, 3]` and the identity in place of the hash routine. -/
theorem claimC7_witness :
    calculateIntegrity
      ⟨fun l => l, fun _ => [], fun _ => some (BundleItem.asset [1, 2, 3]),
        "/".data, "/".data⟩ false "index.html".data "/app.js".data
      = Except.ok (some ("sha384-".data ++ base64Encode [1, 2, 3])) :=
  (claimC7_digest_format
    ⟨fun l => l, fun _ => [], fun _ => some (BundleItem.asset [1, 2, 3]),
      "/".data, "/".data⟩ false "index.html".data "/app.js".data).2.2
    [1, 2, 3] (by decide) rfl

/-- Claim C8: a non-network reference whose computed bundle key is absent
resolves to the missing-asset error when `ignoreMissingAsset` is off — the
error propagates through the pass (and through the per-document pass chain),
so no patched text is ever produced for the entry under processing — and
resolves to a silent skip (no change, remaining references still processed)
when `ignoreMissingAsset` is on. -/
theorem claimC8_missing_asset (env : Env) (options : SriOptions)
    (scanScript scanCss scanModule scan : List Char → List RegExpMatch)
    (m : RegExpMatch) (rest : List RegExpMatch) (endOffset : Nat)
    (htmlPath html url : List Char)
    (hnf : "http".data.isPrefixOf url = false)
    (hmiss : env.bundle (getBundleKey env.base env.cwd htmlPath url) = none) :
    (calculateIntegrity env false htmlPath url
        = Except.error ("Asset ".data ++ url ++ " not found in bundle".data))
    ∧ (options.ignoreMissingAssets = false → m.url = url →
        shouldProcessUrl url options = true → scan html = m :: rest →
        transformHTML env options scan endOffset htmlPath html
          = Except.error ("Asset ".data ++ url ++ " not found in bundle".data))
    ∧ (∀ e, transformHTML env options scanScript 10 htmlPath html = Except.error e →
        processHTML env options scanScript scanCss scanModule htmlPath html
          = Except.error e)
    ∧ (calculateIntegrity env true htmlPath url = Except.ok none)
    ∧ (options.ignoreMissingAssets = true → m.url = url →
        computeChanges env options endOffset htmlPath (m :: rest)
          = computeChanges env options endOffset htmlPath rest) := by
  have herr : calculateIntegrity env false htmlPath url
      = Except.error ("Asset ".data ++ url ++ " not found in bundle".data) := by
    simp [calculateIntegrity, hnf, hmiss]
  have hnone : calculateIntegrity env true htmlPath url = Except.ok none := by
    simp [calculateIntegrity, hnf, hmiss]
  refine ⟨herr, ?_, ?_, hnone, ?_⟩
  · intro hign hmu hsp hscan
    simp [transformHTML, hscan, computeChanges, hmu, hsp, hign, herr]
  · intro e he
    simp [processHTML, he]
  · intro hign hmu
    cases hsp : shouldProcessUrl m.url options with
    | false => simp [computeChanges, hsp]
    | true => simp [computeChanges, hsp, hmu, hign, hnone]

/-- Witness for C8: a bundle with no entries makes a kept reference fail the
whole pass by default, and be skipped with the ignore option set. -/
theorem claimC8_witness :
    transformHTML ⟨fun l => l, fun _ => [], fun _ => none, "/".data, "/".data⟩
      ⟨false, CrossoriginOption.boolValue true, none, false, none, none⟩
      (fun _ => [⟨"app.js".data, 30⟩]) 10 "index.html".data "<html></html>".data
      = Except.error ("Asset ".data ++ "app.js".data ++ " not found in bundle".data)
    ∧ computeChanges ⟨fun l => l, fun _ => [], fun _ => none, "/".data, "/".data⟩
      ⟨true, CrossoriginOption.boolValue true, none, false, none, none⟩ 10
      "index.html".data [⟨"app.js".data, 30⟩]
      = computeChanges ⟨fun l => l, fun _ => [], fun _ => none, "/".data, "/".data⟩
      ⟨true, CrossoriginOption.boolValue true, none, false, none, none⟩ 10
      "index.html".data [] :=
  ⟨(claimC8_missing_asset
      ⟨fun l => l, fun _ => [], fun _ => none, "/".data, "/".data⟩
      ⟨false, CrossoriginOption.boolValue true, none, false, none, none⟩
      (fun _ => []) (fun _ => []) (fun _ => []) (fun _ => [⟨"app.js".data, 30⟩])
      ⟨"app.js".data, 30⟩ [] 10 "index.html".data "<html></html>".data
      "app.js".data (by decide) rfl).2.1 rfl rfl (by decide) rfl,
   (claimC8_missing_asset
      ⟨fun l => l, fun _ => [], fun _ => none, "/".data, "/".data⟩
      ⟨true, CrossoriginOption.boolValue true, none, false, none, none⟩
      (fun _ => []) (fun _ => []) (fun _ => []) (fun _ => [])
      ⟨"app.js".data, 30⟩ [] 10 "index.html".data "<html></html>".data
      "app.js".data (by decide) rfl).2.2.2.2 rfl rfl⟩

/-- Claim C10: when the host's analysis plugin's generateBundle hook is
neither a plain function nor an object with a truthy handler (for example,
absent, or an object whose handler is absent), hijackGenerateBundle leaves the
hook unchanged and returns normally — the SRI pass is never installed, and the
result does not depend on the after-hook at all. -/
theorem claimC10_silent_non_installation {α : Type} (andThen : α → α → α)
    (hook : Hook α) (afterHook afterHook2 : α)
    (h : hook = Hook.missing ∨ hook = Hook.objWithHandler none) :
    hijackGenerateBundle andThen hook afterHook = hook
    ∧ hijackGenerateBundle andThen hook afterHook
        = hijackGenerateBundle andThen hook afterHook2 := by
  rcases h with h | h <;> subst h <;> exact ⟨rfl, rfl⟩

/-- Witness for C10 with natural-number hooks composed by addition. -/
theorem claimC10_witness :
    hijackGenerateBundle Nat.add (Hook.objWithHandler none) 5
        = Hook.objWithHandler none
    ∧ hijackGenerateBundle Nat.add (Hook.objWithHandler none) 5
        = hijackGenerateBundle Nat.add (Hook.objWithHandler none) 7 :=
  claimC10_silent_non_installation Nat.add (Hook.objWithHandler none) 5 7 (Or.inr rfl)

end Sri

namespace Sri

/-! ### Scan-order lemmas (for claim C9) -/

theorem computeChanges_mem (env : Env) (options : SriOptions) (endOffset : Nat)
    (htmlPath : List Char) :
    ∀ (ms : List RegExpMatch) (cs : List Change),
      computeChanges env options endOffset htmlPath ms = Except.ok cs →
      ∀ c ∈ cs, ∃ m ∈ ms, c.insertPos = m.lastIndex - endOffset := by
  intro ms
  induction ms with
  | nil =>
    intro cs h c hc
    rw [computeChanges] at h
    cases h
    simp at hc
  | cons m rest ih =>
    intro cs h c hc
    rw [computeChanges] at h
    cases hsp : shouldProcessUrl m.url options with
    | false =>
      simp [hsp] at h
      obtain ⟨m2, hm2, he⟩ := ih cs h c hc
      exact ⟨m2, List.mem_cons_of_mem m hm2, he⟩
    | true =>
      simp [hsp] at h
      cases hcalc : calculateIntegrity env options.ignoreMissingAssets htmlPath m.url with
      | error e =>
        rw [hcalc] at h
        cases h
      | ok oi =>
        rw [hcalc] at h
        cases oi with
        | none =>
          obtain ⟨m2, hm2, he⟩ := ih cs h c hc
          exact ⟨m2, List.mem_cons_of_mem m hm2, he⟩
        | some integ =>
          cases hrec : computeChanges env options endOffset htmlPath rest with
          | error e =>
            rw [hrec] at h
            cases h
          | ok cs2 =>
            rw [hrec] at h
            cases h
            rcases List.mem_cons.mp hc with hc | hc
            · subst hc
              exact ⟨m, List.mem_cons_self m rest, rfl⟩
            · obtain ⟨m2, hm2, he⟩ := ih cs2 hrec c hc
              exact ⟨m2, List.mem_cons_of_mem m hm2, he⟩

theorem computeChanges_sorted (env : Env) (options : SriOptions) (endOffset : Nat)
    (htmlPath : List Char) :
    ∀ (ms : List RegExpMatch) (cs : List Change),
      ((ms.map RegExpMatch.lastIndex).Pairwise (· < ·)) →
      (∀ m ∈ ms, endOffset ≤ m.lastIndex) →
      computeChanges env options endOffset htmlPath ms = Except.ok cs →
      (cs.map Change.insertPos).Pairwise (· < ·) := by
  intro ms
  induction ms with
  | nil =>
    intro cs _ _ h
    rw [computeChanges] at h
    cases h
    simp
  | cons m rest ih =>
    intro cs hsort hge h
    rw [List.map_cons, List.pairwise_cons] at hsort
    have hge2 : ∀ m2 ∈ rest, endOffset ≤ m2.lastIndex := fun m2 hm2 =>
      hge m2 (List.mem_cons_of_mem m hm2)
    rw [computeChanges] at h
    cases hsp : shouldProcessUrl m.url options with
    | false =>
      simp [hsp] at h
      exact ih cs hsort.2 hge2 h
    | true =>
      simp [hsp] at h
      cases hcalc : calculateIntegrity env options.ignoreMissingAssets htmlPath m.url with
      | error e =>
        rw [hcalc] at h
        cases h
      | ok oi =>
        rw [hcalc] at h
        cases oi with
        | none => exact ih cs hsort.2 hge2 h
        | some integ =>
          cases hrec : computeChanges env options endOffset htmlPath rest with
          | error e =>
            rw [hrec] at h
            cases h
          | ok cs2 =>
            rw [hrec] at h
            cases h
            rw [List.map_cons, List.pairwise_cons]
            constructor
            · intro p hp
              obtain ⟨c, hc, rfl⟩ := List.mem_map.mp hp
              obtain ⟨m2, hm2, he⟩ :=
                computeChanges_mem env options endOffset htmlPath rest cs2 hrec c hc
              have hlt : m.lastIndex < m2.lastIndex :=
                hsort.1 _ (List.mem_map_of_mem RegExpMatch.lastIndex hm2)
              have hgem : endOffset ≤ m.lastIndex := hge m (List.mem_cons_self m rest)
              rw [he]
              show m.lastIndex - endOffset < m2.lastIndex - endOffset
              omega
            · exact ih cs2 hsort.2 hge2 hrec

/-- Claim C9: within one tag-shape pass, the change list is fully computed
(resolutions included) before the first insertion is applied — a successful
scan phase yields exactly `applyChanges` of the untouched text, and a failing
one patches nothing — and the changes come out in scanner match order: when
the scanner's match ends are strictly increasing (and at least the tag's end
offset), the insert positions are strictly increasing. The pass scans with a
freshly reset matcher, modelled by `scan` being a pure function of the text. -/
theorem claimC9_pass_ordering (env : Env) (options : SriOptions)
    (scan : List Char → List RegExpMatch) (endOffset : Nat)
    (htmlPath html : List Char) :
    (∀ changes,
        computeChanges env options endOffset htmlPath (scan html) = Except.ok changes →
        transformHTML env options scan endOffset htmlPath html
          = Except.ok (applyChanges html changes)
        ∧ (((scan html).map RegExpMatch.lastIndex).Pairwise (· < ·) →
            (∀ m ∈ scan html, endOffset ≤ m.lastIndex) →
            (changes.map Change.insertPos).Pairwise (· < ·)))
    ∧ (∀ e,
        computeChanges env options endOffset htmlPath (scan html) = Except.error e →
        transformHTML env options scan endOffset htmlPath html = Except.error e) := by
  constructor
  · intro changes h
    refine ⟨?_, ?_⟩
    · simp [transformHTML, h]
    · intro hsort hge
      exact computeChanges_sorted env options endOffset htmlPath (scan html)
        changes hsort hge h
  · intro e h
    simp [transformHTML, h]

/-- Witness for C9: two concrete matches at ends 25 and 60 over a one-asset
bundle; the pass is the patcher applied to the two computed changes, whose
insert positions 15 and 50 are strictly increasing. -/
theorem claimC9_witness :
    transformHTML
      ⟨fun l => l, fun _ => [], fun _ => some (BundleItem.asset [7]), "/".data, "/".data⟩
      ⟨false, CrossoriginOption.boolValue true, none, false, none, none⟩
      (fun _ => [⟨"a.js".data, 25⟩, ⟨"b.js".data, 60⟩]) 10 "index.html".data "x".data
      = Except.ok (applyChanges "x".data
          [⟨digestString (fun l => l) [7], " crossorigin=\"anonymous\"".data, 15⟩,
           ⟨digestString (fun l => l) [7], " crossorigin=\"anonymous\"".data, 50⟩])
    ∧ (([⟨digestString (fun l => l) [7], " crossorigin=\"anonymous\"".data, 15⟩,
         ⟨digestString (fun l => l) [7], " crossorigin=\"anonymous\"".data, 50⟩]
          : List Change).map Change.insertPos).Pairwise (· < ·) :=
  ⟨((claimC9_pass_ordering
      ⟨fun l => l, fun _ => [], fun _ => some (BundleItem.asset [7]), "/".data, "/".data⟩
      ⟨false, CrossoriginOption.boolValue true, none, false, none, none⟩
      (fun _ => [⟨"a.js".data, 25⟩, ⟨"b.js".data, 60⟩]) 10 "index.html".data
      "x".data).1
      [⟨digestString (fun l => l) [7], " crossorigin=\"anonymous\"".data, 15⟩,
       ⟨digestString (fun l => l) [7], " crossorigin=\"anonymous\"".data, 50⟩]
      rfl).1,
   (((claimC9_pass_ordering
      ⟨fun l => l, fun _ => [], fun _ => some (BundleItem.asset [7]), "/".data, "/".data⟩
      ⟨false, CrossoriginOption.boolValue true, none, false, none, none⟩
      (fun _ => [⟨"a.js".data, 25⟩, ⟨"b.js".data, 60⟩]) 10 "index.html".data
      "x".data).1
      [⟨digestString (fun l => l) [7], " crossorigin=\"anonymous\"".data, 15⟩,
       ⟨digestString (fun l => l) [7], " crossorigin=\"anonymous\"".data, 50⟩]
      rfl).2) (by decide) (by decide)⟩

end Sri
